import Mathlib

/-!
Verification of the forward-simulation engine of the ANN_ellipsometry repository.

The Python sources embedded here are:
* `Projet/ellipsometry/simulation/simulation_maxwell_garnett.py`
* `Projet/ellipsometry/simulation/simulation_lorentz.py`
* `Projet/ellipsometry/simulation/simulation.py`

Floating-point arithmetic is modelled by exact real arithmetic (`ℝ`, `ℂ`).
The external thin-film solver `tmm.tmm_core.ellips` and the external
interpolator `scipy.interpolate.interp1d` are modelled as opaque function
parameters, since the specification treats both as external primitives.
-/

namespace ANNEllipso

/-- Model of numpy's principal complex square root `np.sqrt` applied to a
complex argument `z`: the real part is `sqrt((|z| + Re z)/2)` and the
imaginary part is `sign(Im z) * sqrt((|z| - Re z)/2)` (with the `+` branch
taken when `Im z = 0`).  This is the standard principal branch that numpy
implements. -/
noncomputable def npSqrtC (z : ℂ) : ℂ :=
  ⟨Real.sqrt ((Complex.abs z + z.re) / 2),
   (if z.im < 0 then (-1 : ℝ) else 1) * Real.sqrt ((Complex.abs z - z.re) / 2)⟩

/-- Complex permittivity of a material with refractive index `n + i k`, as
computed on lines 47-48 of `simulation_maxwell_garnett.py`:
`(n**2 - k**2) - 1j*(2*n*k)`. -/
noncomputable def complexPerm (n k : ℝ) : ℂ :=
  ((n ^ 2 - k ^ 2 : ℝ) : ℂ) - ((2 * n * k : ℝ) : ℂ) * Complex.I

/-- Maxwell-Garnett effective permittivity, line 50 of
`simulation_maxwell_garnett.py`:
`perm2 * (perm1 + 2*perm2 + 2*fv*(perm1 - perm2)) / (perm1 + 2*perm2 - fv*(perm1 - perm2))`. -/
noncomputable def mgPermEffect (fv : ℝ) (perm1 perm2 : ℂ) : ℂ :=
  perm2 * (perm1 + 2 * perm2 + 2 * (fv : ℂ) * (perm1 - perm2)) /
    (perm1 + 2 * perm2 - (fv : ℂ) * (perm1 - perm2))

/-- Line 52 of `simulation_maxwell_garnett.py`:
`n_eff = np.sqrt(0.5 * (perm_effect + np.sqrt(perm_effect.real ** 2 + perm_effect.imag ** 2)))`.
Note that the outer `np.sqrt` receives the *complex* value `perm_effect`
(plus the real modulus), so it is numpy's complex square root. -/
noncomputable def mgNEff (eps : ℂ) : ℂ :=
  npSqrtC ((1 / 2 : ℂ) * (eps + ((Real.sqrt (eps.re ^ 2 + eps.im ^ 2) : ℝ) : ℂ)))

/-- Line 53 of `simulation_maxwell_garnett.py`:
`k_eff = np.sqrt(0.5 * (-perm_effect.real + np.sqrt(perm_effect.real ** 2 + perm_effect.imag ** 2)))`,
a real square root of a non-negative real argument. -/
noncomputable def mgKEff (eps : ℂ) : ℝ :=
  Real.sqrt (1 / 2 * (-eps.re + Real.sqrt (eps.re ^ 2 + eps.im ^ 2)))

/-- `maxwell_garnett(fv, n1, k1, n2, k2)`, lines 29-55 of
`simulation_maxwell_garnett.py`.  In the driver's call, `(n1, k1)` is the
inclusion (pigment) index and `(n2, k2)` the host (layer) index.  The first
returned component is complex (see `mgNEff`), the second is real. -/
noncomputable def maxwell_garnett (fv n1 k1 n2 k2 : ℝ) : ℂ × ℝ :=
  (mgNEff (mgPermEffect fv (complexPerm n1 k1) (complexPerm n2 k2)),
   mgKEff (mgPermEffect fv (complexPerm n1 k1) (complexPerm n2 k2)))

/-- The real part of the standard complex-square-root decomposition named by
the specification (§4.2): `n_eff = sqrt(1/2 * (|eps| + Re eps))`.  This
definition follows the specification's words and is used to compare the
specified recovery formula with the one in the code. -/
noncomputable def sqrtDecompRe (eps : ℂ) : ℝ :=
  Real.sqrt (1 / 2 * (Complex.abs eps + eps.re))

/-- The imaginary part of the standard complex-square-root decomposition named
by the specification (§4.2): `k_eff = sqrt(1/2 * (|eps| - Re eps))`. -/
noncomputable def sqrtDecompIm (eps : ℂ) : ℝ :=
  Real.sqrt (1 / 2 * (Complex.abs eps - eps.re))

lemma sqrt_re_sq_add_im_sq (z : ℂ) :
    Real.sqrt (z.re ^ 2 + z.im ^ 2) = Complex.abs z := by
  rw [Complex.abs_apply, Complex.normSq_apply]
  congr 1
  ring

lemma re_lt_abs_of_im_ne {z : ℂ} (h : z.im ≠ 0) : z.re < Complex.abs z := by
  have h1 : |z.re| ^ 2 < Complex.abs z ^ 2 := by
    rw [sq_abs, Complex.sq_abs, Complex.normSq_apply]
    have him : 0 < z.im ^ 2 := by positivity
    nlinarith
  have h2 : |z.re| < Complex.abs z :=
    lt_of_pow_lt_pow_left₀ 2 (AbsoluteValue.nonneg Complex.abs z) h1
  exact lt_of_le_of_lt (le_abs_self _) h2

lemma npSqrtC_im_neg {z : ℂ} (h : z.im < 0) : (npSqrtC z).im < 0 := by
  have hlt : z.re < Complex.abs z := re_lt_abs_of_im_ne (ne_of_lt h)
  have hpos : 0 < Real.sqrt ((Complex.abs z - z.re) / 2) :=
    Real.sqrt_pos.2 (by linarith)
  show (if z.im < 0 then (-1 : ℝ) else 1) * Real.sqrt ((Complex.abs z - z.re) / 2) < 0
  rw [if_pos h]
  linarith

lemma mgPermEffect_self (fv : ℝ) (eps : ℂ) : mgPermEffect fv eps eps = eps := by
  unfold mgPermEffect
  rcases eq_or_ne eps 0 with h | h
  · simp [h]
  · have h3 : eps + 2 * eps - (fv : ℂ) * (eps - eps) = 3 * eps := by ring
    have h2 : eps * (eps + 2 * eps + 2 * (fv : ℂ) * (eps - eps)) = eps * (3 * eps) := by
      ring
    rw [h3, h2, mul_div_assoc, div_self (mul_ne_zero three_ne_zero h), mul_one]

lemma mgPermEffect_zero (p1 p2 : ℂ) (h : p1 + 2 * p2 ≠ 0) :
    mgPermEffect 0 p1 p2 = p2 := by
  unfold mgPermEffect
  push_cast
  rw [show p1 + 2 * p2 + 2 * 0 * (p1 - p2) = p1 + 2 * p2 by ring,
    show p1 + 2 * p2 - 0 * (p1 - p2) = p1 + 2 * p2 by ring,
    mul_div_assoc, div_self h, mul_one]

lemma mgPermEffect_one (p1 p2 : ℂ) (h : p2 ≠ 0) : mgPermEffect 1 p1 p2 = p1 := by
  unfold mgPermEffect
  push_cast
  have hn : p2 * (p1 + 2 * p2 + 2 * 1 * (p1 - p2)) = p1 * (3 * p2) := by ring
  have hd : p1 + 2 * p2 - 1 * (p1 - p2) = 3 * p2 := by ring
  rw [hn, hd, mul_div_assoc, div_self (mul_ne_zero three_ne_zero h), mul_one]

lemma complexPerm_one_one : complexPerm 1 1 = ⟨0, -2⟩ := by
  unfold complexPerm
  apply Complex.ext <;> norm_num

lemma complexPerm_two_one : complexPerm 2 1 = ⟨3, -4⟩ := by
  unfold complexPerm
  apply Complex.ext <;> norm_num

lemma complexPerm_one_zero : complexPerm 1 0 = 1 := by
  unfold complexPerm
  apply Complex.ext <;> norm_num

lemma sqrt_four : Real.sqrt 4 = 2 := by
  rw [show (4 : ℝ) = 2 ^ 2 by norm_num, Real.sqrt_sq (by norm_num : (0 : ℝ) ≤ 2)]

lemma sqrt_twentyfive : Real.sqrt 25 = 5 := by
  rw [show (25 : ℝ) = 5 ^ 2 by norm_num, Real.sqrt_sq (by norm_num : (0 : ℝ) ≤ 5)]

lemma mgNEff_neg_two_i : mgNEff ⟨0, -2⟩ = npSqrtC ⟨1, -1⟩ := by
  unfold mgNEff
  congr 1
  rw [show ((⟨0, -2⟩ : ℂ).re ^ 2 + (⟨0, -2⟩ : ℂ).im ^ 2) = 4 by norm_num, sqrt_four]
  apply Complex.ext <;>
    norm_num [Complex.mul_re, Complex.mul_im, Complex.div_re, Complex.div_im,
      Complex.normSq_apply]

lemma mgNEff_three_four : mgNEff ⟨3, -4⟩ = npSqrtC ⟨4, -2⟩ := by
  unfold mgNEff
  congr 1
  rw [show ((⟨3, -4⟩ : ℂ).re ^ 2 + (⟨3, -4⟩ : ℂ).im ^ 2) = 25 by norm_num,
    sqrt_twentyfive]
  apply Complex.ext <;>
    norm_num [Complex.mul_re, Complex.mul_im, Complex.div_re, Complex.div_im,
      Complex.normSq_apply]

lemma mgKEff_neg_two_i : mgKEff ⟨0, -2⟩ = 1 := by
  unfold mgKEff
  norm_num [sqrt_four]

lemma mgKEff_three_four : mgKEff ⟨3, -4⟩ = 1 := by
  unfold mgKEff
  norm_num [sqrt_twentyfive]

lemma abs_neg_two_i : Complex.abs ⟨0, -2⟩ = 2 := by
  rw [Complex.abs_apply, Complex.normSq_mk]
  norm_num [sqrt_four]

lemma sqrtDecompRe_neg_two_i : sqrtDecompRe ⟨0, -2⟩ = 1 := by
  unfold sqrtDecompRe
  rw [abs_neg_two_i]
  norm_num

lemma sqrtDecompIm_neg_two_i : sqrtDecompIm ⟨0, -2⟩ = 1 := by
  unfold sqrtDecompIm
  rw [abs_neg_two_i]
  norm_num

/-- C1: the `maxwell_garnett` mixing function does compute the claimed
permittivities and the claimed effective permittivity, and its `k_eff` output
is the claimed non-negative real `sqrt(1/2 (|eps_eff| - Re eps_eff))`; but its
`n_eff` output is NOT the claimed non-negative real
`sqrt(1/2 (|eps_eff| + Re eps_eff))`: line 52 of the code applies `np.sqrt` to
the complex value `0.5*(eps_eff + |eps_eff|)` (the `.real` projection is
missing), so at `fv = 1/2`, `n = k = 1` for both phases the returned `n_eff`
has strictly negative imaginary part, while the claimed value is the real
number `1`. -/
theorem c1_mg_recovery_bug :
    (maxwell_garnett (1 / 2) 1 1 1 1).1.im < 0 ∧
    sqrtDecompRe (mgPermEffect (1 / 2) (complexPerm 1 1) (complexPerm 1 1)) = 1 ∧
    (maxwell_garnett (1 / 2) 1 1 1 1).2 =
      sqrtDecompIm (mgPermEffect (1 / 2) (complexPerm 1 1) (complexPerm 1 1)) := by
  have hperm : mgPermEffect (1 / 2) (complexPerm 1 1) (complexPerm 1 1) = ⟨0, -2⟩ := by
    rw [complexPerm_one_one, mgPermEffect_self]
  refine ⟨?_, ?_, ?_⟩
  · show (mgNEff (mgPermEffect (1 / 2) (complexPerm 1 1) (complexPerm 1 1))).im < 0
    rw [hperm, mgNEff_neg_two_i]
    exact npSqrtC_im_neg (by norm_num)
  · rw [hperm, sqrtDecompRe_neg_two_i]
  · show mgKEff (mgPermEffect (1 / 2) (complexPerm 1 1) (complexPerm 1 1)) =
      sqrtDecompIm (mgPermEffect (1 / 2) (complexPerm 1 1) (complexPerm 1 1))
    rw [hperm, mgKEff_neg_two_i, sqrtDecompIm_neg_two_i]

lemma npSqrtC_42_ne_two : npSqrtC ⟨4, -2⟩ ≠ ((2 : ℝ) : ℂ) := by
  intro hcon
  have him : (npSqrtC ⟨4, -2⟩).im < 0 := npSqrtC_im_neg (by norm_num)
  rw [hcon] at him
  simp at him

/-- C2: mixing a material with itself is NOT a no-op for the code, because of
the missing `.real` on line 52: at `fv = 1/3`, `n = 2`, `k = 1`, the
self-mixed effective permittivity is (correctly) `3 - 4i`, and the returned
`k_eff` equals `k = 1`, but the returned `n_eff` is the complex number
`sqrt(4 - 2i) ≈ 2.06 - 0.48i`, not `n = 2`. -/
theorem c2_self_mix_bug :
    (maxwell_garnett (1 / 3) 2 1 2 1).1 ≠ ((2 : ℝ) : ℂ) ∧
    (maxwell_garnett (1 / 3) 2 1 2 1).2 = 1 := by
  have hperm : mgPermEffect (1 / 3) (complexPerm 2 1) (complexPerm 2 1) = ⟨3, -4⟩ := by
    rw [complexPerm_two_one, mgPermEffect_self]
  constructor
  · have h1 : (maxwell_garnett (1 / 3) 2 1 2 1).1 = npSqrtC ⟨4, -2⟩ := by
      show mgNEff (mgPermEffect (1 / 3) (complexPerm 2 1) (complexPerm 2 1)) = _
      rw [hperm, mgNEff_three_four]
    rw [h1]
    exact npSqrtC_42_ne_two
  · show mgKEff (mgPermEffect (1 / 3) (complexPerm 2 1) (complexPerm 2 1)) = 1
    rw [hperm, mgKEff_three_four]

/-- C3: at the boundaries the *permittivity* level of Maxwell-Garnett reduces
correctly (at `fv = 0` the effective permittivity is the host permittivity,
at `fv = 1` the inclusion permittivity), and the returned `k_eff` equals the
host (resp. inclusion) extinction coefficient; but the returned index does
not equal the host (resp. inclusion) index: with host index `(2, 1)` at
`fv = 0` (and with inclusion index `(2, 1)` at `fv = 1`) the returned `n_eff`
is the complex number `sqrt(4 - 2i)`, not the real number `2`, again because
of the missing `.real` on line 52. -/
theorem c3_boundary_bug :
    (maxwell_garnett 0 1 0 2 1).1 ≠ ((2 : ℝ) : ℂ) ∧
    (maxwell_garnett 0 1 0 2 1).2 = 1 ∧
    mgPermEffect 0 (complexPerm 1 0) (complexPerm 2 1) = complexPerm 2 1 ∧
    (maxwell_garnett 1 2 1 1 0).1 ≠ ((2 : ℝ) : ℂ) ∧
    (maxwell_garnett 1 2 1 1 0).2 = 1 ∧
    mgPermEffect 1 (complexPerm 2 1) (complexPerm 1 0) = complexPerm 2 1 := by
  have hne0 : complexPerm 1 0 + 2 * complexPerm 2 1 ≠ 0 := by
    rw [complexPerm_one_zero, complexPerm_two_one]
    intro hcon
    have him := congrArg Complex.im hcon
    norm_num [Complex.add_im, Complex.mul_im] at him
  have hone : complexPerm 1 0 ≠ 0 := by
    rw [complexPerm_one_zero]
    exact one_ne_zero
  have hperm0 : mgPermEffect 0 (complexPerm 1 0) (complexPerm 2 1) = ⟨3, -4⟩ := by
    rw [mgPermEffect_zero _ _ hne0, complexPerm_two_one]
  have hperm1 : mgPermEffect 1 (complexPerm 2 1) (complexPerm 1 0) = ⟨3, -4⟩ := by
    rw [mgPermEffect_one _ _ hone, complexPerm_two_one]
  refine ⟨?_, ?_, ?_, ?_, ?_, ?_⟩
  · have h1 : (maxwell_garnett 0 1 0 2 1).1 = npSqrtC ⟨4, -2⟩ := by
      show mgNEff (mgPermEffect 0 (complexPerm 1 0) (complexPerm 2 1)) = _
      rw [hperm0, mgNEff_three_four]
    rw [h1]
    exact npSqrtC_42_ne_two
  · show mgKEff (mgPermEffect 0 (complexPerm 1 0) (complexPerm 2 1)) = 1
    rw [hperm0, mgKEff_three_four]
  · rw [hperm0, complexPerm_two_one]
  · have h1 : (maxwell_garnett 1 2 1 1 0).1 = npSqrtC ⟨4, -2⟩ := by
      show mgNEff (mgPermEffect 1 (complexPerm 2 1) (complexPerm 1 0)) = _
      rw [hperm1, mgNEff_three_four]
    rw [h1]
    exact npSqrtC_42_ne_two
  · show mgKEff (mgPermEffect 1 (complexPerm 2 1) (complexPerm 1 0)) = 1
    rw [hperm1, mgKEff_three_four]
  · rw [hperm1, complexPerm_two_one]

/-- Denominator `(w2 - l02) ** 2 + gam2 * w2` shared by both components of the
Lorentzian contribution, lines 49-50 of `simulation_lorentz.py`. -/
noncomputable def lorentzDenom (w lambda0 gamma : ℝ) : ℝ :=
  (w ^ 2 - lambda0 ^ 2) ^ 2 + gamma ^ 2 * w ^ 2

/-- `lorentzian_contribution(wavelengths, amplitude, lambda0, gamma)`, lines
26-51 of `simulation_lorentz.py`, at a single wavelength `w` (the Python
function maps this computation elementwise over the wavelength array):
`eps_real = amplitude * w2 * (w2 - l02) / ((w2 - l02)**2 + gam2*w2)`,
`eps_imag = amplitude * wavelengths**3 * gamma / ((w2 - l02)**2 + gam2*w2)`,
returning `eps_real + 1j * eps_imag`. -/
noncomputable def lorentzian_contribution (w amplitude lambda0 gamma : ℝ) : ℂ :=
  ⟨amplitude * w ^ 2 * (w ^ 2 - lambda0 ^ 2) / lorentzDenom w lambda0 gamma,
   amplitude * w ^ 3 * gamma / lorentzDenom w lambda0 gamma⟩

/-- Refractive-index correction computed on lines 142-143 of
`simulation_lorentz.py`:
`np.sqrt(0.5*(np.abs(eps) + np.real(eps))) - 1j*np.sqrt(0.5*(np.abs(eps) - np.real(eps)))`.
Note the minus sign in front of the imaginary part. -/
noncomputable def lorentzian_nk (eps : ℂ) : ℂ :=
  ((sqrtDecompRe eps : ℝ) : ℂ) - Complex.I * ((sqrtDecompIm eps : ℝ) : ℂ)

/-- One perturbed Lorentzian parameter triple `(lambda0', gamma', amplitude')`,
lines 120-126 of `simulation_lorentz.py`, as a function of the uniform random
draw `R`. -/
noncomputable def perturbParams (lambda0 gamma amplitude R : ℝ) : ℝ × ℝ × ℝ :=
  (lambda0 + 0.6 * (R - 10) ^ (0.9 : ℝ),
   max (gamma + 0.2 * (R - 10) ^ (1.1 : ℝ)) 1,
   max (amplitude + 0.0025 * R - 0.000015 * R ^ 2) 0.01)

/-- A material's optical-constant table: wavelength samples (micrometers) with
the corresponding refractive-index samples `n` and `k`.  Loading and parsing
the table file is external to the simulation core. -/
structure NKTable where
  lam : List ℝ
  n : List ℝ
  k : List ℝ

/-- Type of the external interpolator constructor, modelling
`scipy.interpolate.interp1d`: it receives the sample abscissas, the sample
ordinates and the query point. -/
abbrev Interp : Type := List ℝ → List ℝ → ℝ → ℝ

/-- Output of the external ellipsometry solver `tmm.tmm_core.ellips`: the two
ellipsometric angles `psi` and `Delta`, in radians. -/
structure EllipsOut where
  psi : ℝ
  Delta : ℝ

/-- Type of the external solver `tmm.tmm_core.ellips`, modelled as receiving
the three-medium index stack `[air, film, substrate]`, the film thickness (the
two semi-infinite thicknesses of the ambient and substrate media are the
constant `inf` in every call and are therefore omitted), the incidence angle
in radians, and the vacuum wavelength in nanometers. -/
abbrev Ellips : Type := List ℂ → ℝ → ℝ → ℝ → EllipsOut

/-- Value of an interpolator built over one table column after the
micrometer-to-nanometer conversion `lam *= 1000` (lines 92-94 and 46-47 of the
drivers). -/
noncomputable def interpVal (interp : Interp) (lam ys : List ℝ) (w : ℝ) : ℝ :=
  interp (lam.map fun x => x * 1000) ys w

/-- Interpolated complex index `f_r(wave) + 1j * f_i(wave)` of a material. -/
noncomputable def matIndex (interp : Interp) (tbl : NKTable) (w : ℝ) : ℂ :=
  ((interpVal interp tbl.lam tbl.n w : ℝ) : ℂ) +
    Complex.I * ((interpVal interp tbl.lam tbl.k w : ℝ) : ℂ)

/-- Film index passed to the solver by the Lorentzian driver, line 146 of
`simulation_lorentz.py`: `flayer_r(wave) + 1j*flayer_i(wave) + lorentzian_nk[ii]`,
where the parameter triple is `p = (lambda0, gamma, amplitude)` as generated. -/
noncomputable def lorentzLayerIndex (interp : Interp) (layer : NKTable)
    (p : ℝ × ℝ × ℝ) (w : ℝ) : ℂ :=
  matIndex interp layer w + lorentzian_nk (lorentzian_contribution w p.2.2 p.1 p.2.1)

lemma lorentzian_nk_re (eps : ℂ) : (lorentzian_nk eps).re = sqrtDecompRe eps := by
  simp [lorentzian_nk]

lemma lorentzian_nk_im (eps : ℂ) : (lorentzian_nk eps).im = -sqrtDecompIm eps := by
  simp [lorentzian_nk]

lemma lorentz_eps0_eval : lorentzian_contribution 4 25 0 3 = ⟨16, 12⟩ := by
  unfold lorentzian_contribution lorentzDenom
  apply Complex.ext <;> norm_num

lemma abs_sixteen_twelve : Complex.abs ⟨16, 12⟩ = 20 := by
  rw [Complex.abs_apply, Complex.normSq_mk]
  rw [show (16 : ℝ) * 16 + 12 * 12 = 400 by norm_num,
    show (400 : ℝ) = 20 ^ 2 by norm_num, Real.sqrt_sq (by norm_num : (0 : ℝ) ≤ 20)]

lemma sqrtDecompIm_eps0_pos : 0 < sqrtDecompIm ⟨16, 12⟩ := by
  unfold sqrtDecompIm
  rw [abs_sixteen_twelve]
  apply Real.sqrt_pos.2
  norm_num

/-- C4 (counterexample): the Lorentzian index correction is NOT added as
`(n_host + n_L) + i (k_host + k_L)`.  With host index `2 + i`, wavelength 4,
amplitude 25, center 0 and linewidth 3 the permittivity contribution is
`16 + 12i` and its decomposition has `k_L = sqrt 2 > 0`, so the film index
built by the driver, whose imaginary part is `k_host - k_L`, differs from the
claimed value. -/
theorem c4_counterexample :
    lorentzLayerIndex (fun _ ys _ => ys.headD 0) ⟨[0.3, 1], [2, 2], [1, 1]⟩ (0, 3, 25) 4 ≠
      ((2 + sqrtDecompRe (lorentzian_contribution 4 25 0 3) : ℝ) : ℂ) +
        Complex.I * ((1 + sqrtDecompIm (lorentzian_contribution 4 25 0 3) : ℝ) : ℂ) := by
  intro hcon
  have him := congrArg Complex.im hcon
  simp only [lorentzLayerIndex, lorentz_eps0_eval, matIndex, interpVal,
    Complex.add_im, Complex.ofReal_im, Complex.mul_im, Complex.I_re, Complex.I_im,
    Complex.ofReal_re, lorentzian_nk_im, List.headD] at him
  have hpos := sqrtDecompIm_eps0_pos
  norm_num at him
  linarith

/-- C4 (amended): `lorentzian_contribution` computes exactly the claimed
dispersion formulas, the derived correction components `n_L` and `k_L` are the
non-negative square-root decomposition of the contribution, and the film index
built by the driver equals `(n_host + n_L) + i (k_host - k_L)` — the
correction added is `n_L - i k_L`, i.e. the `k` component is subtracted, not
added. -/
theorem c4_lorentz_film_index (interp : Interp) (layer : NKTable)
    (amplitude lambda0 gamma w : ℝ) :
    (lorentzian_contribution w amplitude lambda0 gamma).re =
      amplitude * w ^ 2 * (w ^ 2 - lambda0 ^ 2) /
        ((w ^ 2 - lambda0 ^ 2) ^ 2 + gamma ^ 2 * w ^ 2) ∧
    (lorentzian_contribution w amplitude lambda0 gamma).im =
      amplitude * w ^ 3 * gamma /
        ((w ^ 2 - lambda0 ^ 2) ^ 2 + gamma ^ 2 * w ^ 2) ∧
    0 ≤ sqrtDecompRe (lorentzian_contribution w amplitude lambda0 gamma) ∧
    0 ≤ sqrtDecompIm (lorentzian_contribution w amplitude lambda0 gamma) ∧
    lorentzLayerIndex interp layer (lambda0, gamma, amplitude) w =
      (((matIndex interp layer w).re +
          sqrtDecompRe (lorentzian_contribution w amplitude lambda0 gamma) : ℝ) : ℂ) +
        Complex.I * (((matIndex interp layer w).im -
          sqrtDecompIm (lorentzian_contribution w amplitude lambda0 gamma) : ℝ) : ℂ) := by
  refine ⟨rfl, rfl, Real.sqrt_nonneg _, Real.sqrt_nonneg _, ?_⟩
  unfold lorentzLayerIndex
  apply Complex.ext <;>
    simp [lorentzian_nk_re, lorentzian_nk_im, Complex.add_re, Complex.add_im,
      Complex.mul_re, Complex.mul_im, Complex.I_re, Complex.I_im,
      Complex.ofReal_re, Complex.ofReal_im]
  ring

lemma lorentzDenom_pos {w gamma : ℝ} (lambda0 : ℝ) (hw : 0 < w) (hg : gamma ≠ 0) :
    0 < lorentzDenom w lambda0 gamma := by
  unfold lorentzDenom
  have h1 : 0 ≤ (w ^ 2 - lambda0 ^ 2) ^ 2 := sq_nonneg _
  have h2 : 0 < gamma ^ 2 * w ^ 2 := by positivity

  linarith

/-- C10: for every positive wavelength and nonzero linewidth the shared
denominator of the Lorentzian dispersion formulas is strictly positive, and in
particular it is strictly positive for every generated parameter triple, whose
linewidth component is clamped to at least 1; so `lorentzian_contribution`
never divides by zero on the inputs the driver passes to it. -/
theorem c10_lorentz_denominator_pos (w lambda0 gamma l0 g a R : ℝ)
    (hw : 0 < w) (hg : gamma ≠ 0) :
    0 < lorentzDenom w lambda0 gamma ∧
    0 < lorentzDenom w (perturbParams l0 g a R).1 (perturbParams l0 g a R).2.1 := by
  constructor
  · exact lorentzDenom_pos lambda0 hw hg
  · have hg2 : (1 : ℝ) ≤ (perturbParams l0 g a R).2.1 := le_max_right _ _
    exact lorentzDenom_pos _ hw (by intro h0; rw [h0] at hg2; linarith)

/-- Witness for C10 at the concrete input `w = 1`, `lambda0 = 0`, `gamma = 1`,
nominal triple `(500, 50, 0.15)` and draw `R = 10`. -/
theorem c10_witness :
    0 < lorentzDenom 1 0 1 ∧
    0 < lorentzDenom 1 (perturbParams 500 50 0.15 10).1 (perturbParams 500 50 0.15 10).2.1 :=
  c10_lorentz_denominator_pos 1 0 1 500 50 0.15 10 (by norm_num) (by norm_num)

/-- `np.min` of a table column; the Python code only ever applies it to
non-empty arrays (a table always has at least one sample), so the value on
`[]` is irrelevant. -/
noncomputable def listMin : List ℝ → ℝ
  | [] => 0
  | x :: xs => xs.foldl min x

/-- `np.max` of a table column; see `listMin`. -/
noncomputable def listMax : List ℝ → ℝ
  | [] => 0
  | x :: xs => xs.foldl max x

/-- `min_wavelength = max(np.min(lam_s), np.min(lam_layer))` after the
micrometer-to-nanometer conversion (lines 56-57 of `simulation.py`, lines
97-98 of `simulation_lorentz.py`). -/
noncomputable def domainMin (sub layer : NKTable) : ℝ :=
  max (listMin (sub.lam.map fun x => x * 1000)) (listMin (layer.lam.map fun x => x * 1000))

/-- `max_wavelength = min(np.max(lam_s), np.max(lam_layer))`. -/
noncomputable def domainMax (sub layer : NKTable) : ℝ :=
  min (listMax (sub.lam.map fun x => x * 1000)) (listMax (layer.lam.map fun x => x * 1000))

/-- Three-material variant used by the Maxwell-Garnett driver (lines 105-106
of `simulation_maxwell_garnett.py`): `max(np.min(lam_s), np.min(lam_layer), np.min(lam_p))`. -/
noncomputable def domainMin3 (sub layer pig : NKTable) : ℝ :=
  max (domainMin sub layer) (listMin (pig.lam.map fun x => x * 1000))

/-- `min(np.max(lam_s), np.max(lam_layer), np.max(lam_p))`. -/
noncomputable def domainMax3 (sub layer pig : NKTable) : ℝ :=
  min (domainMax sub layer) (listMax (pig.lam.map fun x => x * 1000))

/-- `filtered_dlam = dlam[(dlam >= min_wavelength) & (dlam <= max_wavelength)]`. -/
noncomputable def filteredW (sub layer : NKTable) (dlam : List ℝ) : List ℝ :=
  dlam.filter fun w => decide (domainMin sub layer ≤ w ∧ w ≤ domainMax sub layer)

/-- Three-material wavelength filter of the Maxwell-Garnett driver. -/
noncomputable def filteredW3 (sub layer pig : NKTable) (dlam : List ℝ) : List ℝ :=
  dlam.filter fun w => decide (domainMin3 sub layer pig ≤ w ∧ w ≤ domainMax3 sub layer pig)

/-- Failure modes of the sweep drivers, following the specification's error
taxonomy (§7).  The Python code raises `ValueError` in each case; the
`outOfDomain` constructor carries the two bounds that the Python message
interpolates ("Valid range: ... to ... nm"), modelling "an error naming the
valid range". -/
inductive SimError where
  | invalidParameter : SimError
  | outOfDomain (minW maxW : ℝ) : SimError
  | invalidMaterial : SimError

/-- One column of the plain supervector: the `psi` block (`psis[ii] = e_data['psi'] / degree`)
followed by the `Delta` block, lines 71-82 of `simulation.py`, at one thickness. -/
noncomputable def plainColumn (interp : Interp) (ell : Ellips) (sub layer : NKTable)
    (angle_rad t : ℝ) (filtered : List ℝ) : List ℝ :=
  (filtered.map fun w =>
    (ell [1, matIndex interp layer w, matIndex interp sub w] t angle_rad w).psi /
      (Real.pi / 180)) ++
  (filtered.map fun w =>
    (ell [1, matIndex interp layer w, matIndex interp sub w] t angle_rad w).Delta /
      (Real.pi / 180))

/-- Effective film index built by the Maxwell-Garnett driver, lines 125-126 of
`simulation_maxwell_garnett.py`:
`n_eff, k_eff = maxwell_garnett(vf, fpigment_r(w), fpigment_i(w), flayer_r(w), flayer_i(w))`
followed by `indice_layer = n_eff + 1j * k_eff` (recall that `n_eff` is
complex and `k_eff` real, see `maxwell_garnett`). -/
noncomputable def mgLayerIndex (interp : Interp) (pig layer : NKTable) (vf w : ℝ) : ℂ :=
  (maxwell_garnett vf (interpVal interp pig.lam pig.n w) (interpVal interp pig.lam pig.k w)
      (interpVal interp layer.lam layer.n w) (interpVal interp layer.lam layer.k w)).1 +
    Complex.I *
      (((maxwell_garnett vf (interpVal interp pig.lam pig.n w)
          (interpVal interp pig.lam pig.k w) (interpVal interp layer.lam layer.n w)
          (interpVal interp layer.lam layer.k w)).2 : ℝ) : ℂ)

/-- One column of the Maxwell-Garnett supervector at one thickness and one
volume fraction, lines 122-134 of `simulation_maxwell_garnett.py`. -/
noncomputable def mgColumn (interp : Interp) (ell : Ellips) (sub layer pig : NKTable)
    (angle_rad t vf : ℝ) (filtered : List ℝ) : List ℝ :=
  (filtered.map fun w =>
    (ell [1, mgLayerIndex interp pig layer vf w, matIndex interp sub w] t angle_rad w).psi /
      (Real.pi / 180)) ++
  (filtered.map fun w =>
    (ell [1, mgLayerIndex interp pig layer vf w, matIndex interp sub w] t angle_rad w).Delta /
      (Real.pi / 180))

/-- One column of the Lorentzian supervector at one thickness and one
parameter triple, lines 138-155 of `simulation_lorentz.py` (`psis[ii] =
e_data['psi'] * 180 / np.pi`; the angle is converted inline as
`angle * np.pi / 180`). -/
noncomputable def lorentzColumn (interp : Interp) (ell : Ellips) (sub layer : NKTable)
    (angle t : ℝ) (p : ℝ × ℝ × ℝ) (filtered : List ℝ) : List ℝ :=
  (filtered.map fun w =>
    (ell [1, lorentzLayerIndex interp layer p w, matIndex interp sub w] t
      (angle * Real.pi / 180) w).psi * 180 / Real.pi) ++
  (filtered.map fun w =>
    (ell [1, lorentzLayerIndex interp layer p w, matIndex interp sub w] t
      (angle * Real.pi / 180) w).Delta * 180 / Real.pi)

/-- `run_simulation(dlam, angle, substrate, layers)`, lines 23-90 of
`simulation.py`.  Table loading is external, so the two already-loaded tables
are arguments; `layers = None` (the missing-layer `ValueError`) is modelled by
the `Option`; the material filename inside `layers` only selects which table
is loaded and is therefore subsumed by the `layer` argument. -/
noncomputable def run_simulation (interp : Interp) (ell : Ellips) (dlam : List ℝ)
    (angle : ℝ) (sub layer : NKTable) (layers : Option (List ℝ)) :
    Except SimError (List (List ℝ)) :=
  match layers with
  | none => .error .invalidParameter
  | some thickness_range =>
    if (filteredW sub layer dlam).isEmpty then
      .error (.outOfDomain (domainMin sub layer) (domainMax sub layer))
    else
      .ok (thickness_range.map fun t =>
        plainColumn interp ell sub layer (angle * (Real.pi / 180)) t
          (filteredW sub layer dlam))

/-- `run_simulation_maxwell_garnett(dlam, angle, substrate, layers, vfractions,
nanoparticle_material)`, lines 58-140 of `simulation_maxwell_garnett.py`. -/
noncomputable def run_simulation_maxwell_garnett (interp : Interp) (ell : Ellips)
    (dlam : List ℝ) (angle : ℝ) (sub layer pig : NKTable)
    (layers : Option (List ℝ)) (vfractions : Option (List ℝ)) :
    Except SimError (List (List (List ℝ))) :=
  match layers, vfractions with
  | some thickness_range, some vfs =>
    if (filteredW3 sub layer pig dlam).isEmpty then
      .error (.outOfDomain (domainMin3 sub layer pig) (domainMax3 sub layer pig))
    else
      .ok (thickness_range.map fun t => vfs.map fun vf =>
        mgColumn interp ell sub layer pig (angle * (Real.pi / 180)) t vf
          (filteredW3 sub layer pig dlam))
  | _, _ => .error .invalidParameter

/-- The 30 perturbed parameter triples generated on lines 117-126 of
`simulation_lorentz.py`, in generation order; `rs i` is the i-th value of the
random stream `np.random.uniform(10, 100)`. -/
noncomputable def lorentzParams (lambda0 gamma amplitude : ℝ) (rs : ℕ → ℝ) :
    List (ℝ × ℝ × ℝ) :=
  (List.range 30).map fun i => perturbParams lambda0 gamma amplitude (rs i)

/-- `run_simulation_lorentzien(dlam, angle, substrate, layers,
nanoparticle_material)`, lines 54-164 of `simulation_lorentz.py`.  The
unseeded global random generator is modelled by the explicit stream `rs`. -/
noncomputable def run_simulation_lorentzien (interp : Interp) (ell : Ellips)
    (dlam : List ℝ) (angle : ℝ) (sub layer : NKTable) (layers : Option (List ℝ))
    (mat : String) (rs : ℕ → ℝ) :
    Except SimError (List (List (List ℝ)) × List (ℝ × ℝ × ℝ)) :=
  match layers with
  | none => .error .invalidParameter
  | some thickness_range =>
    if (filteredW sub layer dlam).isEmpty then
      .error (.outOfDomain (domainMin sub layer) (domainMax sub layer))
    else if mat = "Au.nk" then
      .ok (thickness_range.map fun t => (lorentzParams 500 50 0.150 rs).map fun p =>
            lorentzColumn interp ell sub layer angle t p (filteredW sub layer dlam),
          lorentzParams 500 50 0.150 rs)
    else if mat = "Ag.nk" then
      .ok (thickness_range.map fun t => (lorentzParams 405 40 0.150 rs).map fun p =>
            lorentzColumn interp ell sub layer angle t p (filteredW sub layer dlam),
          lorentzParams 405 40 0.150 rs)
    else
      .error .invalidMaterial

/-- Entry of a two-axis supervector at `(row, jj)`.  The array is represented
column-by-column: the Python code fills `supervector[0:nwave, jj]` and
`supervector[nwave:2*nwave, jj]` for each thickness index `jj`, which is
column `jj` of the `(2*nwave, n_thickness)` array. -/
def entry2 (sv : List (List ℝ)) (row col : ℕ) : ℝ := (sv.getD col []).getD row 0

/-- Entry of a three-axis supervector at `(row, jj, kk)`; see `entry2`. -/
def entry3 (sv : List (List (List ℝ))) (row j k : ℕ) : ℝ :=
  ((sv.getD j []).getD k []).getD row 0

lemma getD_map_of_lt {α β : Type} (f : α → β) (l : List α) {i : ℕ} (h : i < l.length)
    (d : β) (d' : α) : (l.map f).getD i d = f (l.getD i d') := by
  rw [List.getD_eq_getElem _ _ (by simpa using h), List.getElem_map,
    List.getD_eq_getElem _ _ h]

lemma append_map_getD_left {α : Type} (f g : α → ℝ) (l : List α) {i : ℕ}
    (h : i < l.length) (d : α) :
    ((l.map f) ++ (l.map g)).getD i 0 = f (l.getD i d) := by
  rw [List.getD_append _ _ _ _ (by simpa using h)]
  exact getD_map_of_lt f l h 0 d

lemma append_map_getD_right {α : Type} (f g : α → ℝ) (l : List α) {i : ℕ}
    (h : i < l.length) (d : α) :
    ((l.map f) ++ (l.map g)).getD (l.length + i) 0 = g (l.getD i d) := by
  rw [List.getD_append_right _ _ _ _ (by simp)]
  rw [List.length_map, show l.length + i - l.length = i by omega]
  exact getD_map_of_lt g l h 0 d

lemma div_degree_eq (x : ℝ) : x / (Real.pi / 180) = x * (180 / Real.pi) := by
  rw [div_div_eq_mul_div, mul_div_assoc]

lemma isEmpty_eq_false_of_ne_nil {l : List ℝ} (h : l ≠ []) : l.isEmpty = false := by
  simpa [List.isEmpty_iff] using h

lemma filteredW_eq_nil {sub layer : NKTable} {dlam : List ℝ}
    (h : ∀ w ∈ dlam, ¬(domainMin sub layer ≤ w ∧ w ≤ domainMax sub layer)) :
    filteredW sub layer dlam = [] := by
  unfold filteredW
  rw [List.filter_eq_nil_iff]
  intro a ha
  simpa using h a ha

lemma filteredW3_eq_nil {sub layer pig : NKTable} {dlam : List ℝ}
    (h : ∀ w ∈ dlam, ¬(domainMin3 sub layer pig ≤ w ∧ w ≤ domainMax3 sub layer pig)) :
    filteredW3 sub layer pig dlam = [] := by
  unfold filteredW3
  rw [List.filter_eq_nil_iff]
  intro a ha
  simpa using h a ha

lemma run_simulation_ok (interp : Interp) (ell : Ellips) (dlam : List ℝ) (angle : ℝ)
    (sub layer : NKTable) (ts : List ℝ) (h : filteredW sub layer dlam ≠ []) :
    run_simulation interp ell dlam angle sub layer (some ts) =
      .ok (ts.map fun t => plainColumn interp ell sub layer (angle * (Real.pi / 180)) t
        (filteredW sub layer dlam)) := by
  unfold run_simulation
  rw [isEmpty_eq_false_of_ne_nil h]
  simp

lemma run_simulation_mg_ok (interp : Interp) (ell : Ellips) (dlam : List ℝ) (angle : ℝ)
    (sub layer pig : NKTable) (ts vfs : List ℝ)
    (h : filteredW3 sub layer pig dlam ≠ []) :
    run_simulation_maxwell_garnett interp ell dlam angle sub layer pig (some ts) (some vfs) =
      .ok (ts.map fun t => vfs.map fun vf =>
        mgColumn interp ell sub layer pig (angle * (Real.pi / 180)) t vf
          (filteredW3 sub layer pig dlam)) := by
  unfold run_simulation_maxwell_garnett
  rw [isEmpty_eq_false_of_ne_nil h]
  simp

lemma run_simulation_lorentz_au (interp : Interp) (ell : Ellips) (dlam : List ℝ)
    (angle : ℝ) (sub layer : NKTable) (ts : List ℝ) (rs : ℕ → ℝ)
    (h : filteredW sub layer dlam ≠ []) :
    run_simulation_lorentzien interp ell dlam angle sub layer (some ts) "Au.nk" rs =
      .ok (ts.map fun t => (lorentzParams 500 50 0.150 rs).map fun p =>
            lorentzColumn interp ell sub layer angle t p (filteredW sub layer dlam),
          lorentzParams 500 50 0.150 rs) := by
  unfold run_simulation_lorentzien
  rw [isEmpty_eq_false_of_ne_nil h]
  simp

lemma run_simulation_lorentz_ag (interp : Interp) (ell : Ellips) (dlam : List ℝ)
    (angle : ℝ) (sub layer : NKTable) (ts : List ℝ) (rs : ℕ → ℝ)
    (h : filteredW sub layer dlam ≠ []) :
    run_simulation_lorentzien interp ell dlam angle sub layer (some ts) "Ag.nk" rs =
      .ok (ts.map fun t => (lorentzParams 405 40 0.150 rs).map fun p =>
            lorentzColumn interp ell sub layer angle t p (filteredW sub layer dlam),
          lorentzParams 405 40 0.150 rs) := by
  unfold run_simulation_lorentzien
  rw [isEmpty_eq_false_of_ne_nil h]
  simp

/-- Concrete two-sample table spanning 0.3 to 1.0 micrometers (300 to 1000 nm
after conversion), used for witnesses. -/
noncomputable def tstTable : NKTable := ⟨[0.3, 1], [1, 1], [0, 0]⟩

lemma tstTable_domainMin : domainMin tstTable tstTable = 300 := by
  unfold domainMin tstTable listMin
  norm_num

lemma tstTable_domainMax : domainMax tstTable tstTable = 1000 := by
  unfold domainMax tstTable listMax
  norm_num

lemma tstTable_filter_one : filteredW tstTable tstTable [400] = [400] := by
  unfold filteredW tstTable domainMin domainMax listMin listMax
  norm_num [List.filter_cons, List.filter_nil]

lemma tstTable_filter_two : filteredW tstTable tstTable [400, 2000] = [400] := by
  unfold filteredW tstTable domainMin domainMax listMin listMax
  norm_num [List.filter_cons, List.filter_nil]

/-- C6: whenever at least one requested wavelength is inside the intersected
domain, the plain driver returns a supervector with exactly
`len(thickness_values)` columns, each of length `2 * nwave`, where `nwave`
counts the requested wavelengths inside the intersected domain (inclusive
bounds, after the 1000-fold unit conversion); moreover there are inputs for
which `nwave` is strictly smaller than the caller's wavelength count. -/
theorem c6_plain_shape (interp : Interp) (ell : Ellips) (dlam : List ℝ) (angle : ℝ)
    (sub layer : NKTable) (ts : List ℝ)
    (h : filteredW sub layer dlam ≠ []) :
    (∃ sv, run_simulation interp ell dlam angle sub layer (some ts) = .ok sv ∧
      sv.length = ts.length ∧
      ∀ col ∈ sv, col.length = 2 * (filteredW sub layer dlam).length) ∧
    ∃ sub2 layer2 : NKTable, ∃ dlam2 : List ℝ,
      filteredW sub2 layer2 dlam2 ≠ [] ∧
      (filteredW sub2 layer2 dlam2).length < dlam2.length := by
  constructor
  · refine ⟨_, run_simulation_ok interp ell dlam angle sub layer ts h, by simp, ?_⟩
    intro col hcol
    simp only [List.mem_map] at hcol
    obtain ⟨t, ht, rfl⟩ := hcol
    unfold plainColumn
    simp [two_mul]
  · exact ⟨tstTable, tstTable, [400, 2000], by rw [tstTable_filter_two]; simp,
      by rw [tstTable_filter_two]; simp⟩

/-- Witness for C6 at a concrete input: constant interpolator and solver, the
test tables, wavelengths `[400, 2000]` (of which only 400 is in domain),
angle 70 and a single thickness 100. -/
theorem c6_witness :
    (∃ sv, run_simulation (fun _ _ _ => 0) (fun _ _ _ _ => ⟨0, 0⟩) [400, 2000] 70
        tstTable tstTable (some [100]) = .ok sv ∧
      sv.length = [(100 : ℝ)].length ∧
      ∀ col ∈ sv, col.length = 2 * (filteredW tstTable tstTable [400, 2000]).length) ∧
    ∃ sub2 layer2 : NKTable, ∃ dlam2 : List ℝ,
      filteredW sub2 layer2 dlam2 ≠ [] ∧
      (filteredW sub2 layer2 dlam2).length < dlam2.length :=
  c6_plain_shape (fun _ _ _ => 0) (fun _ _ _ _ => ⟨0, 0⟩) [400, 2000] 70
    tstTable tstTable [100] (by rw [tstTable_filter_two]; simp)

/-- C7: if no requested wavelength lies in the intersected wavelength domain
of that variant's participating materials (substrate and layer for the plain
and Lorentzian drivers; substrate, layer and nanoparticle for the
Maxwell-Garnett driver), the corresponding sweep driver fails with the
out-of-domain error carrying the valid range, and no supervector is produced.
Each conjunct assumes only its own variant's condition. -/
theorem c7_out_of_domain (interp : Interp) (ell : Ellips) (dlam : List ℝ) (angle : ℝ)
    (sub layer pig : NKTable) (ts vfs : List ℝ) (mat : String) (rs : ℕ → ℝ) :
    ((∀ w ∈ dlam, ¬(domainMin sub layer ≤ w ∧ w ≤ domainMax sub layer)) →
      run_simulation interp ell dlam angle sub layer (some ts) =
        .error (.outOfDomain (domainMin sub layer) (domainMax sub layer))) ∧
    ((∀ w ∈ dlam, ¬(domainMin3 sub layer pig ≤ w ∧ w ≤ domainMax3 sub layer pig)) →
      run_simulation_maxwell_garnett interp ell dlam angle sub layer pig (some ts)
          (some vfs) =
        .error (.outOfDomain (domainMin3 sub layer pig) (domainMax3 sub layer pig))) ∧
    ((∀ w ∈ dlam, ¬(domainMin sub layer ≤ w ∧ w ≤ domainMax sub layer)) →
      run_simulation_lorentzien interp ell dlam angle sub layer (some ts) mat rs =
        .error (.outOfDomain (domainMin sub layer) (domainMax sub layer))) := by
  refine ⟨?_, ?_, ?_⟩
  · intro h2
    unfold run_simulation
    rw [filteredW_eq_nil h2]
    simp
  · intro h3
    unfold run_simulation_maxwell_garnett
    rw [filteredW3_eq_nil h3]
    simp
  · intro h2
    unfold run_simulation_lorentzien
    rw [filteredW_eq_nil h2]
    simp

/-- Concrete pigment table spanning 0.5 to 0.6 micrometers (500 to 600 nm
after conversion): it narrows the three-material Maxwell-Garnett domain to
500-600 nm while the substrate-layer domain stays 300-1000 nm. -/
noncomputable def pigTable : NKTable := ⟨[0.5, 0.6], [1, 1], [0, 0]⟩

lemma pigTable_domainMin3 : domainMin3 tstTable tstTable pigTable = 500 := by
  unfold domainMin3 domainMin pigTable tstTable listMin
  norm_num [max_def]

lemma pigTable_domainMax3 : domainMax3 tstTable tstTable pigTable = 600 := by
  unfold domainMax3 domainMax pigTable tstTable listMax
  norm_num [min_def]

/-- Witness for C7 at concrete inputs.  The plain and Lorentzian conjuncts are
exercised at wavelength 2000 nm, outside the 300-1000 nm substrate-layer
domain.  The Maxwell-Garnett conjunct is exercised at wavelength 400 nm with a
pigment table spanning 500-600 nm: the wavelength lies inside the
substrate-layer domain but outside the three-material intersection, so only
the three-table condition holds, and the driver still fails out-of-domain. -/
theorem c7_witness :
    run_simulation (fun _ _ _ => 0) (fun _ _ _ _ => ⟨0, 0⟩) [2000] 70 tstTable tstTable
        (some [100]) =
      .error (.outOfDomain (domainMin tstTable tstTable) (domainMax tstTable tstTable)) ∧
    run_simulation_maxwell_garnett (fun _ _ _ => 0) (fun _ _ _ _ => ⟨0, 0⟩) [400] 70
        tstTable tstTable pigTable (some [100]) (some [0.01]) =
      .error (.outOfDomain (domainMin3 tstTable tstTable pigTable)
        (domainMax3 tstTable tstTable pigTable)) ∧
    run_simulation_lorentzien (fun _ _ _ => 0) (fun _ _ _ _ => ⟨0, 0⟩) [2000] 70
        tstTable tstTable (some [100]) "Au.nk" (fun _ => 10) =
      .error (.outOfDomain (domainMin tstTable tstTable) (domainMax tstTable tstTable)) :=
  ⟨(c7_out_of_domain (fun _ _ _ => 0) (fun _ _ _ _ => ⟨0, 0⟩) [2000] 70 tstTable tstTable
      pigTable [100] [0.01] "Au.nk" (fun _ => 10)).1
    (by
      intro w hw
      rw [tstTable_domainMin, tstTable_domainMax]
      simp only [List.mem_singleton] at hw
      subst hw
      norm_num),
   (c7_out_of_domain (fun _ _ _ => 0) (fun _ _ _ _ => ⟨0, 0⟩) [400] 70 tstTable tstTable
      pigTable [100] [0.01] "Au.nk" (fun _ => 10)).2.1
    (by
      intro w hw
      rw [pigTable_domainMin3, pigTable_domainMax3]
      simp only [List.mem_singleton] at hw
      subst hw
      norm_num),
   (c7_out_of_domain (fun _ _ _ => 0) (fun _ _ _ _ => ⟨0, 0⟩) [2000] 70 tstTable tstTable
      pigTable [100] [0.01] "Au.nk" (fun _ => 10)).2.2
    (by
      intro w hw
      rw [tstTable_domainMin, tstTable_domainMax]
      simp only [List.mem_singleton] at hw
      subst hw
      norm_num)⟩

lemma tstTable_filter_out : filteredW tstTable tstTable [2000] = [] := by
  unfold filteredW tstTable domainMin domainMax listMin listMax
  norm_num [List.filter_cons, List.filter_nil]

/-- C8 (counterexample): an unsupported nanoparticle material does not always
produce the invalid-material error: when the wavelength domain check fails
first (line 101 precedes the material check on lines 105-114), the driver
raises the out-of-domain error instead, here with material `Cu.nk` and the
out-of-domain wavelength 2000 nm. -/
theorem c8_counterexample :
    run_simulation_lorentzien (fun _ _ _ => 0) (fun _ _ _ _ => ⟨0, 0⟩) [2000] 70
        tstTable tstTable (some [100]) "Cu.nk" (fun _ => 10) ≠
      .error .invalidMaterial ∧
    run_simulation_lorentzien (fun _ _ _ => 0) (fun _ _ _ _ => ⟨0, 0⟩) [2000] 70
        tstTable tstTable (some [100]) "Cu.nk" (fun _ => 10) =
      .error (.outOfDomain 300 1000) := by
  have hrun : run_simulation_lorentzien (fun _ _ _ => 0) (fun _ _ _ _ => ⟨0, 0⟩) [2000] 70
      tstTable tstTable (some [100]) "Cu.nk" (fun _ => 10) =
      .error (.outOfDomain 300 1000) := by
    unfold run_simulation_lorentzien
    rw [tstTable_filter_out, tstTable_domainMin, tstTable_domainMax]
    simp
  refine ⟨?_, hrun⟩
  rw [hrun]
  intro hcon
  have := Except.error.inj hcon
  exact absurd this (by intro h0; cases h0)

/-- C8 (amended): provided the layer argument is supplied and at least one
requested wavelength lies inside the substrate-layer wavelength domain, every
nanoparticle material other than `Au.nk` and `Ag.nk` makes the Lorentzian
driver fail with the invalid-material error; moreover with an unsupported
material the outcome never depends on the random stream (no random draws are
consumed) and no supervector is produced. -/
theorem c8_invalid_material (interp : Interp) (ell : Ellips) (dlam : List ℝ)
    (angle : ℝ) (sub layer : NKTable) (ts : List ℝ) (mat : String) (rs rs2 : ℕ → ℝ)
    (hAu : mat ≠ "Au.nk") (hAg : mat ≠ "Ag.nk")
    (hw : filteredW sub layer dlam ≠ []) :
    run_simulation_lorentzien interp ell dlam angle sub layer (some ts) mat rs =
      .error .invalidMaterial ∧
    run_simulation_lorentzien interp ell dlam angle sub layer (some ts) mat rs =
      run_simulation_lorentzien interp ell dlam angle sub layer (some ts) mat rs2 := by
  have h1 : ∀ rsf : ℕ → ℝ,
      run_simulation_lorentzien interp ell dlam angle sub layer (some ts) mat rsf =
        .error .invalidMaterial := by
    intro rsf
    unfold run_simulation_lorentzien
    rw [isEmpty_eq_false_of_ne_nil hw]
    simp [hAu, hAg]
  exact ⟨h1 rs, by rw [h1 rs, h1 rs2]⟩

/-- Witness for C8's amended theorem at a concrete input: material `Cu.nk`,
wavelength 400 nm (inside the 300-1000 nm domain of the test tables), and two
different random streams. -/
theorem c8_witness :
    run_simulation_lorentzien (fun _ _ _ => 0) (fun _ _ _ _ => ⟨0, 0⟩) [400] 70
        tstTable tstTable (some [100]) "Cu.nk" (fun _ => 10) =
      .error .invalidMaterial ∧
    run_simulation_lorentzien (fun _ _ _ => 0) (fun _ _ _ _ => ⟨0, 0⟩) [400] 70
        tstTable tstTable (some [100]) "Cu.nk" (fun _ => 10) =
      run_simulation_lorentzien (fun _ _ _ => 0) (fun _ _ _ _ => ⟨0, 0⟩) [400] 70
        tstTable tstTable (some [100]) "Cu.nk" (fun _ => 20) :=
  c8_invalid_material (fun _ _ _ => 0) (fun _ _ _ _ => ⟨0, 0⟩) [400] 70 tstTable tstTable
    [100] "Cu.nk" (fun _ => 10) (fun _ => 20) (by decide) (by decide)
    (by rw [tstTable_filter_one]; simp)

/-- C9: for a supported nanoparticle material and a non-empty active
wavelength set, the Lorentzian driver generates exactly 30 parameter triples,
in generation order, each obtained from the draw `R = rs i` in `[10, 100]` by
the fixed perturbation formulas (see `perturbParams`); every generated triple
has linewidth at least 1 and amplitude at least 0.01, and the supervector's
last (parameter-set) axis has length 30. -/
theorem c9_lorentz_params (interp : Interp) (ell : Ellips) (dlam : List ℝ) (angle : ℝ)
    (sub layer : NKTable) (ts : List ℝ) (mat : String) (rs : ℕ → ℝ)
    (hmat : mat = "Au.nk" ∨ mat = "Ag.nk")
    (hw : filteredW sub layer dlam ≠ [])
    ( _hr : ∀ i, 10 ≤ rs i ∧ rs i ≤ 100) :
    ∃ sv params nominal,
      run_simulation_lorentzien interp ell dlam angle sub layer (some ts) mat rs =
        .ok (sv, params) ∧
      ((mat = "Au.nk" ∧ nominal = ((500 : ℝ), (50 : ℝ), (0.150 : ℝ))) ∨
        (mat = "Ag.nk" ∧ nominal = ((405 : ℝ), (40 : ℝ), (0.150 : ℝ)))) ∧
      params = (List.range 30).map
        (fun i => perturbParams nominal.1 nominal.2.1 nominal.2.2 (rs i)) ∧
      params.length = 30 ∧
      (∀ p ∈ params, 1 ≤ p.2.1 ∧ 0.01 ≤ p.2.2) ∧
      sv.length = ts.length ∧
      ∀ plane ∈ sv, plane.length = 30 := by
  have hparams : ∀ l0 g a : ℝ, ∀ p ∈ lorentzParams l0 g a rs, 1 ≤ p.2.1 ∧ 0.01 ≤ p.2.2 := by
    intro l0 g a p hp
    simp only [lorentzParams, List.mem_map] at hp
    obtain ⟨i, _, rfl⟩ := hp
    exact ⟨le_max_right _ _, le_max_right _ _⟩
  rcases hmat with hmat | hmat <;> subst hmat
  · refine ⟨_, lorentzParams 500 50 0.150 rs, ((500 : ℝ), (50 : ℝ), (0.150 : ℝ)),
      run_simulation_lorentz_au interp ell dlam angle sub layer ts rs hw,
      Or.inl ⟨rfl, rfl⟩, rfl, by simp [lorentzParams], hparams 500 50 0.150, by simp, ?_⟩
    intro plane hplane
    simp only [List.mem_map] at hplane
    obtain ⟨t, _, rfl⟩ := hplane
    simp [lorentzParams]
  · refine ⟨_, lorentzParams 405 40 0.150 rs, ((405 : ℝ), (40 : ℝ), (0.150 : ℝ)),
      run_simulation_lorentz_ag interp ell dlam angle sub layer ts rs hw,
      Or.inr ⟨rfl, rfl⟩, rfl, by simp [lorentzParams], hparams 405 40 0.150, by simp, ?_⟩
    intro plane hplane
    simp only [List.mem_map] at hplane
    obtain ⟨t, _, rfl⟩ := hplane
    simp [lorentzParams]

/-- Witness for C9 at a concrete input: material `Au.nk`, wavelength 400 nm,
one thickness, and the constant random stream 10. -/
theorem c9_witness :
    ∃ sv params nominal,
      run_simulation_lorentzien (fun _ _ _ => 0) (fun _ _ _ _ => ⟨0, 0⟩) [400] 70
          tstTable tstTable (some [100]) "Au.nk" (fun _ => 10) =
        .ok (sv, params) ∧
      (("Au.nk" = "Au.nk" ∧ nominal = ((500 : ℝ), (50 : ℝ), (0.150 : ℝ))) ∨
        ("Au.nk" = "Ag.nk" ∧ nominal = ((405 : ℝ), (40 : ℝ), (0.150 : ℝ)))) ∧
      params = (List.range 30).map
        (fun i => perturbParams nominal.1 nominal.2.1 nominal.2.2 ((fun _ => (10 : ℝ)) i)) ∧
      params.length = 30 ∧
      (∀ p ∈ params, 1 ≤ p.2.1 ∧ 0.01 ≤ p.2.2) ∧
      sv.length = [(100 : ℝ)].length ∧
      ∀ plane ∈ sv, plane.length = 30 :=
  c9_lorentz_params (fun _ _ _ => 0) (fun _ _ _ _ => ⟨0, 0⟩) [400] 70 tstTable tstTable
    [100] "Au.nk" (fun _ => 10) (Or.inl rfl) (by rw [tstTable_filter_one]; simp)
    (fun _ => by norm_num)

lemma entry2_plain_psi (interp : Interp) (ell : Ellips) (sub layer : NKTable)
    (angle_rad : ℝ) (ts filtered : List ℝ) {jj ii : ℕ}
    (hjj : jj < ts.length) (hii : ii < filtered.length) :
    entry2 (ts.map fun t => plainColumn interp ell sub layer angle_rad t filtered) ii jj =
      (ell [1, matIndex interp layer (filtered.getD ii 0),
          matIndex interp sub (filtered.getD ii 0)]
        (ts.getD jj 0) angle_rad (filtered.getD ii 0)).psi / (Real.pi / 180) := by
  unfold entry2
  rw [getD_map_of_lt _ ts hjj [] 0]
  unfold plainColumn
  exact append_map_getD_left _ _ _ hii 0

lemma entry2_plain_delta (interp : Interp) (ell : Ellips) (sub layer : NKTable)
    (angle_rad : ℝ) (ts filtered : List ℝ) {jj ii : ℕ}
    (hjj : jj < ts.length) (hii : ii < filtered.length) :
    entry2 (ts.map fun t => plainColumn interp ell sub layer angle_rad t filtered)
        (filtered.length + ii) jj =
      (ell [1, matIndex interp layer (filtered.getD ii 0),
          matIndex interp sub (filtered.getD ii 0)]
        (ts.getD jj 0) angle_rad (filtered.getD ii 0)).Delta / (Real.pi / 180) := by
  unfold entry2
  rw [getD_map_of_lt _ ts hjj [] 0]
  unfold plainColumn
  exact append_map_getD_right _ _ _ hii 0

lemma entry3_mg_psi (interp : Interp) (ell : Ellips) (sub layer pig : NKTable)
    (angle_rad : ℝ) (ts vfs filtered : List ℝ) {jj kk ii : ℕ}
    (hjj : jj < ts.length) (hkk : kk < vfs.length) (hii : ii < filtered.length) :
    entry3 (ts.map fun t => vfs.map fun vf =>
        mgColumn interp ell sub layer pig angle_rad t vf filtered) ii jj kk =
      (ell [1, mgLayerIndex interp pig layer (vfs.getD kk 0) (filtered.getD ii 0),
          matIndex interp sub (filtered.getD ii 0)]
        (ts.getD jj 0) angle_rad (filtered.getD ii 0)).psi / (Real.pi / 180) := by
  unfold entry3
  rw [getD_map_of_lt _ ts hjj [] 0, getD_map_of_lt _ vfs hkk [] 0]
  unfold mgColumn
  exact append_map_getD_left _ _ _ hii 0

lemma entry3_mg_delta (interp : Interp) (ell : Ellips) (sub layer pig : NKTable)
    (angle_rad : ℝ) (ts vfs filtered : List ℝ) {jj kk ii : ℕ}
    (hjj : jj < ts.length) (hkk : kk < vfs.length) (hii : ii < filtered.length) :
    entry3 (ts.map fun t => vfs.map fun vf =>
        mgColumn interp ell sub layer pig angle_rad t vf filtered)
        (filtered.length + ii) jj kk =
      (ell [1, mgLayerIndex interp pig layer (vfs.getD kk 0) (filtered.getD ii 0),
          matIndex interp sub (filtered.getD ii 0)]
        (ts.getD jj 0) angle_rad (filtered.getD ii 0)).Delta / (Real.pi / 180) := by
  unfold entry3
  rw [getD_map_of_lt _ ts hjj [] 0, getD_map_of_lt _ vfs hkk [] 0]
  unfold mgColumn
  exact append_map_getD_right _ _ _ hii 0

lemma entry3_lorentz_psi (interp : Interp) (ell : Ellips) (sub layer : NKTable)
    (angle : ℝ) (ts filtered : List ℝ) (params : List (ℝ × ℝ × ℝ)) {jj zz ii : ℕ}
    (hjj : jj < ts.length) (hzz : zz < params.length) (hii : ii < filtered.length) :
    entry3 (ts.map fun t => params.map fun p =>
        lorentzColumn interp ell sub layer angle t p filtered) ii jj zz =
      (ell [1, lorentzLayerIndex interp layer (params.getD zz (0, 0, 0)) (filtered.getD ii 0),
          matIndex interp sub (filtered.getD ii 0)]
        (ts.getD jj 0) (angle * Real.pi / 180) (filtered.getD ii 0)).psi * 180 / Real.pi := by
  unfold entry3
  rw [getD_map_of_lt _ ts hjj [] 0, getD_map_of_lt _ params hzz [] (0, 0, 0)]
  unfold lorentzColumn
  exact append_map_getD_left _ _ _ hii 0

lemma entry3_lorentz_delta (interp : Interp) (ell : Ellips) (sub layer : NKTable)
    (angle : ℝ) (ts filtered : List ℝ) (params : List (ℝ × ℝ × ℝ)) {jj zz ii : ℕ}
    (hjj : jj < ts.length) (hzz : zz < params.length) (hii : ii < filtered.length) :
    entry3 (ts.map fun t => params.map fun p =>
        lorentzColumn interp ell sub layer angle t p filtered)
        (filtered.length + ii) jj zz =
      (ell [1, lorentzLayerIndex interp layer (params.getD zz (0, 0, 0)) (filtered.getD ii 0),
          matIndex interp sub (filtered.getD ii 0)]
        (ts.getD jj 0) (angle * Real.pi / 180) (filtered.getD ii 0)).Delta * 180 / Real.pi := by
  unfold entry3
  rw [getD_map_of_lt _ ts hjj [] 0, getD_map_of_lt _ params hzz [] (0, 0, 0)]
  unfold lorentzColumn
  exact append_map_getD_right _ _ _ hii 0

/-- C5: in each of the three sweep variants, at every sweep coordinate and
every active wavelength position `ii`, the returned supervector stores, at row
`ii` of the corresponding column, the solver's `psi` output converted to
degrees (multiplied by 180/pi), and at row `nwave + ii` the solver's `Delta`
output converted to degrees, where the solver is called on the three-medium
stack of the variant at the coordinate's thickness (and fraction or
parameter set) and wavelength. -/
theorem c5_psi_delta_storage :
    (∀ (interp : Interp) (ell : Ellips) (dlam : List ℝ) (angle : ℝ)
      (sub layer : NKTable) (ts : List ℝ), filteredW sub layer dlam ≠ [] →
      ∃ sv, run_simulation interp ell dlam angle sub layer (some ts) = .ok sv ∧
        ∀ jj ii, jj < ts.length → ii < (filteredW sub layer dlam).length →
          entry2 sv ii jj =
            (ell [1, matIndex interp layer ((filteredW sub layer dlam).getD ii 0),
                matIndex interp sub ((filteredW sub layer dlam).getD ii 0)]
              (ts.getD jj 0) (angle * (Real.pi / 180))
              ((filteredW sub layer dlam).getD ii 0)).psi * (180 / Real.pi) ∧
          entry2 sv ((filteredW sub layer dlam).length + ii) jj =
            (ell [1, matIndex interp layer ((filteredW sub layer dlam).getD ii 0),
                matIndex interp sub ((filteredW sub layer dlam).getD ii 0)]
              (ts.getD jj 0) (angle * (Real.pi / 180))
              ((filteredW sub layer dlam).getD ii 0)).Delta * (180 / Real.pi)) ∧
    (∀ (interp : Interp) (ell : Ellips) (dlam : List ℝ) (angle : ℝ)
      (sub layer pig : NKTable) (ts vfs : List ℝ),
      filteredW3 sub layer pig dlam ≠ [] →
      ∃ sv, run_simulation_maxwell_garnett interp ell dlam angle sub layer pig
          (some ts) (some vfs) = .ok sv ∧
        ∀ jj kk ii, jj < ts.length → kk < vfs.length →
          ii < (filteredW3 sub layer pig dlam).length →
          entry3 sv ii jj kk =
            (ell [1, mgLayerIndex interp pig layer (vfs.getD kk 0)
                  ((filteredW3 sub layer pig dlam).getD ii 0),
                matIndex interp sub ((filteredW3 sub layer pig dlam).getD ii 0)]
              (ts.getD jj 0) (angle * (Real.pi / 180))
              ((filteredW3 sub layer pig dlam).getD ii 0)).psi * (180 / Real.pi) ∧
          entry3 sv ((filteredW3 sub layer pig dlam).length + ii) jj kk =
            (ell [1, mgLayerIndex interp pig layer (vfs.getD kk 0)
                  ((filteredW3 sub layer pig dlam).getD ii 0),
                matIndex interp sub ((filteredW3 sub layer pig dlam).getD ii 0)]
              (ts.getD jj 0) (angle * (Real.pi / 180))
              ((filteredW3 sub layer pig dlam).getD ii 0)).Delta * (180 / Real.pi)) ∧
    (∀ (interp : Interp) (ell : Ellips) (dlam : List ℝ) (angle : ℝ)
      (sub layer : NKTable) (ts : List ℝ) (mat : String) (rs : ℕ → ℝ),
      filteredW sub layer dlam ≠ [] → (mat = "Au.nk" ∨ mat = "Ag.nk") →
      ∃ sv params,
        run_simulation_lorentzien interp ell dlam angle sub layer (some ts) mat rs =
          .ok (sv, params) ∧
        ∀ jj zz ii, jj < ts.length → zz < params.length →
          ii < (filteredW sub layer dlam).length →
          entry3 sv ii jj zz =
            (ell [1, lorentzLayerIndex interp layer (params.getD zz (0, 0, 0))
                  ((filteredW sub layer dlam).getD ii 0),
                matIndex interp sub ((filteredW sub layer dlam).getD ii 0)]
              (ts.getD jj 0) (angle * Real.pi / 180)
              ((filteredW sub layer dlam).getD ii 0)).psi * (180 / Real.pi) ∧
          entry3 sv ((filteredW sub layer dlam).length + ii) jj zz =
            (ell [1, lorentzLayerIndex interp layer (params.getD zz (0, 0, 0))
                  ((filteredW sub layer dlam).getD ii 0),
                matIndex interp sub ((filteredW sub layer dlam).getD ii 0)]
              (ts.getD jj 0) (angle * Real.pi / 180)
              ((filteredW sub layer dlam).getD ii 0)).Delta * (180 / Real.pi)) := by
  refine ⟨?_, ?_, ?_⟩
  · intro interp ell dlam angle sub layer ts h
    refine ⟨_, run_simulation_ok interp ell dlam angle sub layer ts h, ?_⟩
    intro jj ii hjj hii
    constructor
    · rw [entry2_plain_psi interp ell sub layer _ ts _ hjj hii, div_degree_eq]
    · rw [entry2_plain_delta interp ell sub layer _ ts _ hjj hii, div_degree_eq]
  · intro interp ell dlam angle sub layer pig ts vfs h
    refine ⟨_, run_simulation_mg_ok interp ell dlam angle sub layer pig ts vfs h, ?_⟩
    intro jj kk ii hjj hkk hii
    constructor
    · rw [entry3_mg_psi interp ell sub layer pig _ ts vfs _ hjj hkk hii, div_degree_eq]
    · rw [entry3_mg_delta interp ell sub layer pig _ ts vfs _ hjj hkk hii, div_degree_eq]
  · intro interp ell dlam angle sub layer ts mat rs h hmat
    rcases hmat with hmat | hmat <;> subst hmat
    · refine ⟨_, _, run_simulation_lorentz_au interp ell dlam angle sub layer ts rs h, ?_⟩
      intro jj zz ii hjj hzz hii
      constructor
      · rw [entry3_lorentz_psi interp ell sub layer _ ts _ _ hjj hzz hii, mul_div_assoc]
      · rw [entry3_lorentz_delta interp ell sub layer _ ts _ _ hjj hzz hii, mul_div_assoc]
    · refine ⟨_, _, run_simulation_lorentz_ag interp ell dlam angle sub layer ts rs h, ?_⟩
      intro jj zz ii hjj hzz hii
      constructor
      · rw [entry3_lorentz_psi interp ell sub layer _ ts _ _ hjj hzz hii, mul_div_assoc]
      · rw [entry3_lorentz_delta interp ell sub layer _ ts _ _ hjj hzz hii, mul_div_assoc]

/-- Constant interpolator used in witnesses. -/
noncomputable def interpZero : Interp := fun _ _ _ => 0

/-- Constant solver used in witnesses. -/
noncomputable def ellZero : Ellips := fun _ _ _ _ => ⟨0, 0⟩

lemma tstTable_filter3_one : filteredW3 tstTable tstTable tstTable [400] = [400] := by
  unfold filteredW3 domainMin3 domainMax3 domainMin domainMax tstTable listMin listMax
  norm_num [List.filter_cons, List.filter_nil]

/-- Witness for C5 at concrete inputs: constant interpolator and solver, the
test tables, wavelength 400 nm, angle 70, thickness 100, volume fraction 0.01,
material `Au.nk`, constant random stream 10. -/
theorem c5_witness :
    (∃ sv, run_simulation interpZero ellZero [400] 70 tstTable tstTable (some [100]) =
        .ok sv ∧
      ∀ jj ii, jj < [(100 : ℝ)].length → ii < (filteredW tstTable tstTable [400]).length →
        entry2 sv ii jj =
          (ellZero [1, matIndex interpZero tstTable ((filteredW tstTable tstTable [400]).getD ii 0),
              matIndex interpZero tstTable ((filteredW tstTable tstTable [400]).getD ii 0)]
            ([(100 : ℝ)].getD jj 0) (70 * (Real.pi / 180))
            ((filteredW tstTable tstTable [400]).getD ii 0)).psi * (180 / Real.pi) ∧
        entry2 sv ((filteredW tstTable tstTable [400]).length + ii) jj =
          (ellZero [1, matIndex interpZero tstTable ((filteredW tstTable tstTable [400]).getD ii 0),
              matIndex interpZero tstTable ((filteredW tstTable tstTable [400]).getD ii 0)]
            ([(100 : ℝ)].getD jj 0) (70 * (Real.pi / 180))
            ((filteredW tstTable tstTable [400]).getD ii 0)).Delta * (180 / Real.pi)) ∧
    (∃ sv, run_simulation_maxwell_garnett interpZero ellZero [400] 70 tstTable tstTable
        tstTable (some [100]) (some [0.01]) = .ok sv ∧
      ∀ jj kk ii, jj < [(100 : ℝ)].length → kk < [(0.01 : ℝ)].length →
        ii < (filteredW3 tstTable tstTable tstTable [400]).length →
        entry3 sv ii jj kk =
          (ellZero [1, mgLayerIndex interpZero tstTable tstTable ([(0.01 : ℝ)].getD kk 0)
                ((filteredW3 tstTable tstTable tstTable [400]).getD ii 0),
              matIndex interpZero tstTable
                ((filteredW3 tstTable tstTable tstTable [400]).getD ii 0)]
            ([(100 : ℝ)].getD jj 0) (70 * (Real.pi / 180))
            ((filteredW3 tstTable tstTable tstTable [400]).getD ii 0)).psi * (180 / Real.pi) ∧
        entry3 sv ((filteredW3 tstTable tstTable tstTable [400]).length + ii) jj kk =
          (ellZero [1, mgLayerIndex interpZero tstTable tstTable ([(0.01 : ℝ)].getD kk 0)
                ((filteredW3 tstTable tstTable tstTable [400]).getD ii 0),
              matIndex interpZero tstTable
                ((filteredW3 tstTable tstTable tstTable [400]).getD ii 0)]
            ([(100 : ℝ)].getD jj 0) (70 * (Real.pi / 180))
            ((filteredW3 tstTable tstTable tstTable [400]).getD ii 0)).Delta * (180 / Real.pi)) ∧
    (∃ sv params,
      run_simulation_lorentzien interpZero ellZero [400] 70 tstTable tstTable (some [100])
        "Au.nk" (fun _ => 10) = .ok (sv, params) ∧
      ∀ jj zz ii, jj < [(100 : ℝ)].length → zz < params.length →
        ii < (filteredW tstTable tstTable [400]).length →
        entry3 sv ii jj zz =
          (ellZero [1, lorentzLayerIndex interpZero tstTable (params.getD zz (0, 0, 0))
                ((filteredW tstTable tstTable [400]).getD ii 0),
              matIndex interpZero tstTable ((filteredW tstTable tstTable [400]).getD ii 0)]
            ([(100 : ℝ)].getD jj 0) (70 * Real.pi / 180)
            ((filteredW tstTable tstTable [400]).getD ii 0)).psi * (180 / Real.pi) ∧
        entry3 sv ((filteredW tstTable tstTable [400]).length + ii) jj zz =
          (ellZero [1, lorentzLayerIndex interpZero tstTable (params.getD zz (0, 0, 0))
                ((filteredW tstTable tstTable [400]).getD ii 0),
              matIndex interpZero tstTable ((filteredW tstTable tstTable [400]).getD ii 0)]
            ([(100 : ℝ)].getD jj 0) (70 * Real.pi / 180)
            ((filteredW tstTable tstTable [400]).getD ii 0)).Delta * (180 / Real.pi)) :=
  ⟨c5_psi_delta_storage.1 interpZero ellZero [400] 70 tstTable tstTable [100]
      (by rw [tstTable_filter_one]; simp),
   c5_psi_delta_storage.2.1 interpZero ellZero [400] 70 tstTable tstTable tstTable [100]
      [0.01] (by rw [tstTable_filter3_one]; simp),
   c5_psi_delta_storage.2.2 interpZero ellZero [400] 70 tstTable tstTable [100] "Au.nk"
      (fun _ => 10) (by rw [tstTable_filter_one]; simp) (Or.inl rfl)⟩

end ANNEllipso
